import Mathlib

set_option linter.dupNamespace false

/-!
# Verification of `pkg/mutate/mutate.go`

A shallow embedding of the admission handler of the mutating webhook
(`Mutate`, `mutateDaemonSetPod`, `getNodeNameFromPod`) and theorems about it.

Modelling conventions.

* A Go pointer `*T` is an `Option T`; `none` is the nil pointer.  Reading a
  field through a nil pointer is a run-time panic, which the embedding keeps
  as the result `Res.panic`.
* A Go slice is a `List`; indexing `xs[0]` of an empty slice is a run-time
  panic, kept as `Res.panic` too.
* A Go `error` is an `Option String` (the message); `none` is the nil error.
* `[]byte` is `Bytes`; where the source distinguishes the nil slice from an
  empty one (`return nil, err` against `[]byte{}`) the slice is an
  `Option Bytes`.
* Everything the handler does to the outside world (a line handed to the
  logger, a node lookup) is recorded, in program order, in a trace of
  `Effect`s.
* `encoding/json` and the Kubernetes client are libraries outside the
  repository: they enter as parameters (`Json`, `Clientset`).
-/

namespace Mutate

/-! ## Data model (the fields of the Kubernetes API types that the code touches) -/

/-- A byte of a Go byte slice. -/
abbrev Byte := Fin 256

/-- The Go type of a byte slice that is not nil. -/
abbrev Bytes := List Byte

/-- The bytes of an ASCII text. -/
def bytesOf (s : String) : Bytes :=
  s.toList.map (fun c => Fin.ofNat c.toNat)

/-- Type `metav1.OwnerReference`. -/
structure OwnerReference where
  APIVersion : String
  Kind : String
  Name : String
  UID : String
  deriving DecidableEq, Repr

/-- Type `corev1.NodeSelectorRequirement`: one clause `{key, operator, values}`. -/
structure NodeSelectorRequirement where
  Key : String
  Operator : String
  Values : List String
  deriving DecidableEq, Repr

/-- Type `corev1.NodeSelectorTerm`: one term group. -/
structure NodeSelectorTerm where
  MatchExpressions : List NodeSelectorRequirement
  MatchFields : List NodeSelectorRequirement
  deriving DecidableEq, Repr

/-- Type `corev1.NodeSelector`. -/
structure NodeSelector where
  NodeSelectorTerms : List NodeSelectorTerm
  deriving DecidableEq, Repr

/-- Type `corev1.NodeAffinity`; the required selector is a pointer. -/
structure NodeAffinity where
  RequiredDuringSchedulingIgnoredDuringExecution : Option NodeSelector
  deriving DecidableEq, Repr

/-- Type `corev1.Affinity`; the node affinity is a pointer. -/
structure Affinity where
  NodeAffinity : Option NodeAffinity
  deriving DecidableEq, Repr

/-- Type `corev1.PodSpec`; the affinity is a pointer. -/
structure PodSpec where
  SchedulerName : String
  NodeName : String
  Affinity : Option Affinity
  deriving DecidableEq, Repr

/-- Type `metav1.ObjectMeta`.  A nil and an empty `OwnerReferences` slice are
both the empty list: the code only asks `!= nil && len > 0`. -/
structure ObjectMeta where
  Name : String
  Namespace : String
  OwnerReferences : List OwnerReference
  deriving DecidableEq, Repr

/-- Type `corev1.Pod`. -/
structure Pod where
  ObjectMeta : ObjectMeta
  Spec : PodSpec
  deriving DecidableEq, Repr

/-- Type `corev1.Node`; `Labels` is a Go map, kept as an association list. -/
structure Node where
  Name : String
  Labels : List (String × String)
  deriving DecidableEq, Repr

/-- One entry of the patch, a Go `map[string]string`. -/
abbrev PatchOp := List (String × String)

/-- Type `metav1.Status`. -/
structure Status where
  Status : String
  Message : String
  deriving DecidableEq, Repr

/-- Type `runtime.RawExtension`: the serialized object, not yet decoded. -/
structure RawExtension where
  Raw : Bytes
  deriving DecidableEq, Repr

/-- Type `v1beta1.AdmissionRequest`. -/
structure AdmissionRequest where
  UID : String
  Name : String
  Namespace : String
  Operation : String
  Object : RawExtension
  OldObject : RawExtension
  deriving DecidableEq, Repr

/-- Type `v1beta1.AdmissionResponse`.  `Patch` is a byte slice (nil when
`none`), `PatchType` and `Result` are pointers. -/
structure AdmissionResponse where
  UID : String
  Allowed : Bool
  Result : Option Status
  Patch : Option Bytes
  PatchType : Option String
  deriving DecidableEq, Repr

/-- Type `v1beta1.AdmissionReview`: type metadata, request and response (both
pointers). -/
structure AdmissionReview where
  Kind : String
  APIVersion : String
  Request : Option AdmissionRequest
  Response : Option AdmissionResponse
  deriving DecidableEq, Repr

/-- The constant `v1beta1.PatchTypeJSONPatch`. -/
def PatchTypeJSONPatch : String := "JSONPatch"

/-! ## Results, panics and effects -/

/-- The result of a Go call that either returns a value or panics. -/
inductive Res (α : Type) where
  | ok (a : α)
  | panic (msg : String)
  deriving DecidableEq, Repr

/-- The message of the run-time panic of a read through a nil pointer. -/
def nilDereference : String :=
  "runtime error: invalid memory address or nil pointer dereference"

/-- The message of the run-time panic of `xs[0]` on an empty slice. -/
def indexOutOfRange : String :=
  "runtime error: index out of range [0] with length 0"

/-- The message of the error of `getNodeNameFromPod` (line 72). -/
def errNodeNotFound : String := "can\x27t find the node for the ds pod"

/-- One call of `log.Printf`, by call site, with its arguments. -/
inductive LogLine where
  /-- Line 78, `recv: %s`. -/
  | recv (body : Bytes)
  /-- Line 20, `owner references type: %s`. -/
  | ownerKind (kind : String)
  /-- Line 26, `Can't find the node the pod(%s/%s) will run, %v`. -/
  | cannotFindNode (ns name err : String)
  /-- Line 30, `node name: %s`. -/
  | nodeName (name : String)
  /-- Line 31, `scheduler name: %s`. -/
  | schedulerName (name : String)
  /-- Line 39, `found the label, the values is %s`. -/
  | foundLabel (val : String)
  /-- Line 110, `%v` of the patch. -/
  | patch (p : List PatchOp)
  /-- Line 137, `resp: %s`. -/
  | resp (body : Bytes)
  deriving DecidableEq, Repr

/-- What the handler does that is visible outside its own variables. -/
inductive Effect where
  /-- A line handed to the logger. -/
  | log (l : LogLine)
  /-- The call of `getNodeNameFromPod` at line 24 (a marker: the call itself
  is pure). -/
  | resolve
  /-- The read `clientSet.CoreV1().Nodes().Get(name, ...)` at line 33. -/
  | getNode (name : String)
  deriving DecidableEq, Repr

/-- The cluster-state collaborator, as far as the code uses it: the node
lookup by name, which yields a node or an error. -/
abbrev Clientset := String → Except String Node

/-! ## `getNodeNameFromPod` (lines 45-73) -/

/-- The inner loop, lines 65-69, over the match-field clauses of one term.
`some r`: the function returns (or panics) from inside the loop; `none`: the
loop ends without a match. -/
def scanMatchFields : List NodeSelectorRequirement → Option (Res (String × Option String))
  | [] => none
  | f :: fs =>
    if f.Key = "metadata.name" then
      match f.Values with
      | [] => some (.panic indexOutOfRange)
      | v :: _ => some (.ok (v, none))
    else scanMatchFields fs

/-- The outer loop, lines 64-70, followed by the final return of line 72. -/
def scanTerms : List NodeSelectorTerm → Res (String × Option String)
  | [] => .ok ("", some errNodeNotFound)
  | t :: ts =>
    match scanMatchFields t.MatchFields with
    | some r => r
    | none => scanTerms ts

/-- Function `getNodeNameFromPod`: the Go result `(string, error)`, or the
panic of reading through a nil pointer in the range expression of line 64. -/
def getNodeNameFromPod (pod : Option Pod) : Res (String × Option String) :=
  match pod with
  | none => .panic nilDereference
  | some pod =>
    match pod.Spec.Affinity with
    | none => .panic nilDereference
    | some affinity =>
      match affinity.NodeAffinity with
      | none => .panic nilDereference
      | some nodeAffinity =>
        match nodeAffinity.RequiredDuringSchedulingIgnoredDuringExecution with
        | none => .panic nilDereference
        | some selector => scanTerms selector.NodeSelectorTerms

/-! ## `mutateDaemonSetPod` (lines 16-43) -/

/-- A call with its trace of effects and its result. -/
structure Run (α : Type) where
  trace : List Effect
  res : Res α
  deriving DecidableEq, Repr

/-- Function `mutateDaemonSetPod`.  The Go function returns nothing; the value
returned here is the content of the slice `patch` as its caller sees it after
the call (the function holds the only other reference to it). -/
def mutateDaemonSetPod (clientSet : Clientset) (pod : Option Pod) (patch : List PatchOp)
    (verbose : Bool) : Run (List PatchOp) :=
  match pod with
  | none => ⟨[], .panic nilDereference⟩
  | some p =>
    match p.ObjectMeta.OwnerReferences with
    | [] => ⟨[], .ok patch⟩
    | owner :: _ =>
      let t1 : List Effect := if verbose then [.log (.ownerKind owner.Kind)] else []
      if owner.Kind = "DaemonSet" then
        match getNodeNameFromPod pod with
        | .panic msg => ⟨t1 ++ [.resolve], .panic msg⟩
        | .ok (_, some err) =>
          ⟨t1 ++ [.resolve, .log (.cannotFindNode p.ObjectMeta.Namespace p.ObjectMeta.Name err)],
            .ok patch⟩
        | .ok (nodeName, none) =>
          let t2 : List Effect :=
            if verbose then [.log (.nodeName nodeName), .log (.schedulerName p.Spec.SchedulerName)]
            else []
          match clientSet nodeName with
          | .error _ => ⟨t1 ++ [.resolve] ++ t2 ++ [.getNode nodeName], .ok patch⟩
          | .ok node =>
            match node.Labels.lookup "visenze.component" with
            | some val =>
              ⟨t1 ++ [.resolve] ++ t2 ++ [.getNode nodeName, .log (.foundLabel val)], .ok patch⟩
            | none => ⟨t1 ++ [.resolve] ++ t2 ++ [.getNode nodeName], .ok patch⟩
      else ⟨t1, .ok patch⟩

/-! ## `Mutate` (lines 76-141) -/

/-- The four uses of `encoding/json` in `Mutate`, as a parameter.

* `unmarshalReview`: `json.Unmarshal(body, &admReview)` on a zero review
  (line 83);
* `unmarshalPod`: `json.Unmarshal(raw, &pod)` on a nil `*corev1.Pod` (line 97);
  the pointer stays nil (`none`) when the document is the literal `null`;
* `marshalPatch`: `json.Marshal(p)` on a `[]map[string]string` (line 120);
* `marshalReview`: `json.Marshal(admReview)` (line 130).

The one fact about the library that is assumed: an empty slice that is not
nil is rendered as the two bytes `[]`. -/
structure Json where
  unmarshalReview : Bytes → Except String AdmissionReview
  unmarshalPod : Bytes → Except String (Option Pod)
  marshalPatch : List PatchOp → Except String Bytes
  marshalReview : AdmissionReview → Except String Bytes
  marshalPatch_nil : marshalPatch [] = .ok (bytesOf "[]")

/-- The bytes and the nil-ness of a `json.Marshal` result whose error is
dropped: on an error the slice is nil. -/
def bytesOrNil : Except String Bytes → Option Bytes
  | .ok b => some b
  | .error _ => none

/-- Function `Mutate`: the Go result `([]byte, error)` or a panic, with the
trace of effects. -/
def Mutate (J : Json) (body : Bytes) (verbose : Bool) (clientSet : Clientset) :
    Run (Option Bytes × Option String) :=
  let t0 : List Effect := if verbose then [.log (.recv body)] else []
  match J.unmarshalReview body with
  | .error e => ⟨t0, .ok (none, some ("unmarshaling request failed with " ++ e))⟩
  | .ok admReview =>
    match admReview.Request with
    | none =>
      let responseBody : Bytes := []
      ⟨t0 ++ (if verbose then [.log (.resp responseBody)] else []), .ok (some responseBody, none)⟩
    | some ar =>
      match J.unmarshalPod ar.Object.Raw with
      | .error e => ⟨t0, .ok (none, some ("unable unmarshal pod json object " ++ e))⟩
      | .ok pod =>
        let m := mutateDaemonSetPod clientSet pod [] verbose
        match m.res with
        | .panic msg => ⟨t0 ++ m.trace, .panic msg⟩
        | .ok p =>
          let resp : AdmissionResponse :=
            { UID := ar.UID
              Allowed := true
              Result := some { Status := "Success", Message := "" }
              Patch := bytesOrNil (J.marshalPatch p)
              PatchType := some PatchTypeJSONPatch }
          match J.marshalReview { admReview with Response := some resp } with
          | .error e => ⟨t0 ++ m.trace ++ [.log (.patch p)], .ok (none, some e)⟩
          | .ok responseBody =>
            ⟨t0 ++ m.trace ++ [.log (.patch p)]
                ++ (if verbose then [.log (.resp responseBody)] else []),
              .ok (some responseBody, none)⟩

/-- The node lookups of a trace, in order. -/
def lookups : List Effect → List String
  | [] => []
  | .getNode n :: es => n :: lookups es
  | _ :: es => lookups es

/-! ## Sample documents

A finite fragment of `encoding/json`, enough to run the handler on concrete
requests: the decoders are given by table on the documents below (every other
document is reported as malformed), and the review encoder is a plain
rendering of the fields of the model (a stand-in for the byte-exact output of
the library, which no statement below depends on). -/

/-- The owner reference of a pod of the DaemonSet `fluentd`. -/
def ownerDaemonSet : OwnerReference :=
  { APIVersion := "apps/v1", Kind := "DaemonSet", Name := "fluentd", UID := "b0e1d6a2" }

/-- The metadata of a pod of the DaemonSet `fluentd`. -/
def metaDaemonSet : ObjectMeta :=
  { Name := "fluentd-x7k2p", Namespace := "kube-system", OwnerReferences := [ownerDaemonSet] }

/-- The metadata part of the sample DaemonSet documents. -/
def textMetaDaemonSet : String :=
  "\"metadata\":\x7b\"name\":\"fluentd-x7k2p\",\"namespace\":\"kube-system\",\"ownerReferences\":[\x7b\"apiVersion\":\"apps/v1\",\"kind\":\"DaemonSet\",\"name\":\"fluentd\",\"uid\":\"b0e1d6a2\"\x7d]\x7d"

/-- A DaemonSet pod without `spec.affinity`. -/
def podDaemonSetNoAffinity : Pod :=
  { ObjectMeta := metaDaemonSet, Spec := { SchedulerName := "", NodeName := "", Affinity := none } }

/-- The document of `podDaemonSetNoAffinity`. -/
def rawDaemonSetNoAffinity : Bytes :=
  bytesOf ("\x7b" ++ textMetaDaemonSet ++ ",\"spec\":\x7b\x7d\x7d")

/-- A DaemonSet pod whose node affinity has no required selector. -/
def podDaemonSetNoRequired : Pod :=
  { ObjectMeta := metaDaemonSet
    Spec :=
      { SchedulerName := "", NodeName := "",
        Affinity := some ⟨some ⟨none⟩⟩ } }

/-- The document of `podDaemonSetNoRequired`. -/
def rawDaemonSetNoRequired : Bytes :=
  bytesOf ("\x7b" ++ textMetaDaemonSet
    ++ ",\"spec\":\x7b\"affinity\":\x7b\"nodeAffinity\":\x7b\x7d\x7d\x7d\x7d")

/-- The clause that pins a pod to the node `ip-10-0-1-156`. -/
def clausePinned : NodeSelectorRequirement :=
  { Key := "metadata.name", Operator := "In", Values := ["ip-10-0-1-156"] }

/-- A pod spec whose required node affinity is the given list of terms. -/
def specWithTerms (terms : List NodeSelectorTerm) : PodSpec :=
  { SchedulerName := "", NodeName := "",
    Affinity := some ⟨some ⟨some ⟨terms⟩⟩⟩ }

/-- A DaemonSet pod pinned to `ip-10-0-1-156` by a match-field clause. -/
def podDaemonSetPinned : Pod :=
  { ObjectMeta := metaDaemonSet
    Spec := specWithTerms [{ MatchExpressions := [], MatchFields := [clausePinned] }] }

/-- The document of `podDaemonSetPinned`. -/
def rawDaemonSetPinned : Bytes :=
  bytesOf ("\x7b" ++ textMetaDaemonSet
    ++ ",\"spec\":\x7b\"affinity\":\x7b\"nodeAffinity\":\x7b\"requiredDuringSchedulingIgnoredDuringExecution\":\x7b\"nodeSelectorTerms\":[\x7b\"matchFields\":[\x7b\"key\":\"metadata.name\",\"operator\":\"In\",\"values\":[\"ip-10-0-1-156\"]\x7d]\x7d]\x7d\x7d\x7d\x7d\x7d")

/-- A DaemonSet pod whose only clause is a match expression, not a match
field. -/
def podDaemonSetUnpinned : Pod :=
  { ObjectMeta := metaDaemonSet
    Spec := specWithTerms [{ MatchExpressions := [clausePinned], MatchFields := [] }] }

/-- The document of `podDaemonSetUnpinned`. -/
def rawDaemonSetUnpinned : Bytes :=
  bytesOf ("\x7b" ++ textMetaDaemonSet
    ++ ",\"spec\":\x7b\"affinity\":\x7b\"nodeAffinity\":\x7b\"requiredDuringSchedulingIgnoredDuringExecution\":\x7b\"nodeSelectorTerms\":[\x7b\"matchExpressions\":[\x7b\"key\":\"metadata.name\",\"operator\":\"In\",\"values\":[\"ip-10-0-1-156\"]\x7d]\x7d]\x7d\x7d\x7d\x7d\x7d")

/-- A DaemonSet pod whose match-field clause for `metadata.name` lists no
value. -/
def podDaemonSetNoValue : Pod :=
  { ObjectMeta := metaDaemonSet
    Spec := specWithTerms
      [{ MatchExpressions := []
         MatchFields := [{ Key := "metadata.name", Operator := "In", Values := [] }] }] }

/-- A pod without owner references. -/
def podBare : Pod :=
  { ObjectMeta := { Name := "web", Namespace := "default", OwnerReferences := [] }
    Spec := { SchedulerName := "", NodeName := "", Affinity := none } }

/-- The document of `podBare`. -/
def rawBare : Bytes :=
  bytesOf "\x7b\"metadata\":\x7b\"name\":\"web\",\"namespace\":\"default\"\x7d,\"spec\":\x7b\x7d\x7d"

/-- A JSON string: a well-formed document that is not a pod. -/
def rawNotAPod : Bytes := bytesOf "\"pod\""

/-- The pod documents of the sample, with the pod each decodes to. -/
def samplePods : List (Bytes × Pod) :=
  [(rawDaemonSetNoAffinity, podDaemonSetNoAffinity),
   (rawDaemonSetNoRequired, podDaemonSetNoRequired),
   (rawDaemonSetPinned, podDaemonSetPinned),
   (rawDaemonSetUnpinned, podDaemonSetUnpinned),
   (rawBare, podBare)]

/-- The request uid of the sample reviews. -/
def sampleUID : String := "705ab4f5-6393-11e8-b7cc-42010a800002"

/-- The review document that carries the object document `raw`. -/
def reviewBody (raw : Bytes) : Bytes :=
  bytesOf "\x7b\"kind\":\"AdmissionReview\",\"apiVersion\":\"admission.k8s.io/v1beta1\",\"request\":\x7b\"uid\":\"705ab4f5-6393-11e8-b7cc-42010a800002\",\"operation\":\"CREATE\",\"object\":"
    ++ raw ++ bytesOf "\x7d\x7d"

/-- The review that `reviewBody raw` decodes to. -/
def reviewOf (raw : Bytes) : AdmissionReview :=
  { Kind := "AdmissionReview", APIVersion := "admission.k8s.io/v1beta1"
    Request := some { UID := sampleUID, Name := "", Namespace := "", Operation := "CREATE"
                      Object := { Raw := raw }, OldObject := { Raw := [] } }
    Response := none }

/-- A review document without a request. -/
def bodyNullRequest : Bytes :=
  bytesOf "\x7b\"kind\":\"AdmissionReview\",\"apiVersion\":\"admission.k8s.io/v1beta1\",\"request\":null\x7d"

/-- The review that `bodyNullRequest` decodes to. -/
def reviewNullRequest : AdmissionReview :=
  { Kind := "AdmissionReview", APIVersion := "admission.k8s.io/v1beta1"
    Request := none, Response := none }

/-- A truncated document. -/
def bodyMalformed : Bytes := bytesOf "\x7b\"kind\":"

/-- The sample decoder of reviews. -/
def sampleUnmarshalReview (body : Bytes) : Except String AdmissionReview :=
  if body = bodyNullRequest then .ok reviewNullRequest
  else
    match (rawNotAPod :: samplePods.map Prod.fst).find? (fun raw => body = reviewBody raw) with
    | some raw => .ok (reviewOf raw)
    | none => .error "unexpected end of JSON input"

/-- The sample decoder of pods. -/
def sampleUnmarshalPod (raw : Bytes) : Except String (Option Pod) :=
  match samplePods.lookup raw with
  | some pod => .ok (some pod)
  | none => .error "json: cannot unmarshal string into Go value of type v1.Pod"

/-- The sample encoder of patches: the empty patch only. -/
def sampleMarshalPatch (p : List PatchOp) : Except String Bytes :=
  if p = [] then .ok (bytesOf "[]") else .error "json: not in the sample"

/-- The rendering of an optional text field. -/
def renderOpt : Option String → String
  | some s => "\"" ++ s ++ "\""
  | none => "null"

/-- The rendering of an optional byte field. -/
def renderBytes : Option Bytes → Bytes
  | some b => b
  | none => bytesOf "null"

/-- The sample rendering of a response. -/
def renderResponse : Option AdmissionResponse → Bytes
  | none => bytesOf "null"
  | some r =>
    bytesOf ("\x7b\"uid\":\"" ++ r.UID ++ "\",\"allowed\":" ++ toString r.Allowed
      ++ ",\"status\":" ++ renderOpt (r.Result.map (fun st => st.Status))
      ++ ",\"patchType\":" ++ renderOpt r.PatchType ++ ",\"patch\":")
    ++ renderBytes r.Patch ++ bytesOf "\x7d"

/-- The sample rendering of a request. -/
def renderRequest : Option AdmissionRequest → Bytes
  | none => bytesOf "null"
  | some r =>
    bytesOf ("\x7b\"uid\":\"" ++ r.UID ++ "\",\"operation\":\"" ++ r.Operation ++ "\",\"object\":")
    ++ r.Object.Raw ++ bytesOf "\x7d"

/-- The sample encoder of reviews. -/
def sampleMarshalReview (r : AdmissionReview) : Except String Bytes :=
  .ok (bytesOf "\x7b"
      ++ bytesOf ("\"kind\":\"" ++ r.Kind ++ "\",\"apiVersion\":\"" ++ r.APIVersion
        ++ "\",\"request\":")
      ++ renderRequest r.Request ++ bytesOf ",\"response\":" ++ renderResponse r.Response
      ++ bytesOf "\x7d")

/-- The sample fragment of `encoding/json`. -/
def sampleJson : Json :=
  { unmarshalReview := sampleUnmarshalReview
    unmarshalPod := sampleUnmarshalPod
    marshalPatch := sampleMarshalPatch
    marshalReview := sampleMarshalReview
    marshalPatch_nil := rfl }

/-- A cluster with the one node `ip-10-0-1-156`, labelled
`visenze.component=worker`. -/
def sampleCluster : Clientset := fun name =>
  if name = "ip-10-0-1-156" then
    .ok { Name := "ip-10-0-1-156", Labels := [("visenze.component", "worker")] }
  else .error ("nodes \"" ++ name ++ "\" not found")

/-- A cluster in which every lookup fails. -/
def emptyCluster : Clientset := fun name => .error ("nodes \"" ++ name ++ "\" not found")

/-- The JSON literal `null` as a raw object. -/
def rawNull : Bytes := bytesOf "null"

/-- The sample fragment of `encoding/json`, extended with the literal `null`
as a raw object: `json.Unmarshal` of `null` into a nil `*corev1.Pod` returns
no error and leaves the pointer nil, and the review decoder keeps the raw
object as it stands in the document (a `RawExtension` that stores the
literal). -/
def sampleJsonNull : Json :=
  { unmarshalReview := fun body =>
      if body = reviewBody rawNull then .ok (reviewOf rawNull) else sampleUnmarshalReview body
    unmarshalPod := fun raw => if raw = rawNull then .ok none else sampleUnmarshalPod raw
    marshalPatch := sampleMarshalPatch
    marshalReview := sampleMarshalReview
    marshalPatch_nil := rfl }

/-! ## Specification-side vocabulary -/

/-- The required node-affinity term groups of a pod, when every level of the
affinity substructure is present. -/
def requiredTerms (pod : Pod) : Option (List NodeSelectorTerm) :=
  match pod.Spec.Affinity with
  | none => none
  | some affinity =>
    match affinity.NodeAffinity with
    | none => none
    | some nodeAffinity =>
      match nodeAffinity.RequiredDuringSchedulingIgnoredDuringExecution with
      | none => none
      | some selector => some selector.NodeSelectorTerms

/-- The match-field clauses of a list of term groups, ordered by term group
first and by position within the group second. -/
def matchFieldClauses : List NodeSelectorTerm → List NodeSelectorRequirement
  | [] => []
  | t :: ts => t.MatchFields ++ matchFieldClauses ts

/-- The first clause of a list whose key is the literal `metadata.name`. -/
def firstNameClause : List NodeSelectorRequirement → Option NodeSelectorRequirement
  | [] => none
  | c :: cs => if c.Key = "metadata.name" then some c else firstNameClause cs

/-- The response that `Mutate` builds for the request `ar` (lines 101-125)
when the serialized patch is `patch`. -/
def responseFor (ar : AdmissionRequest) (patch : Option Bytes) : AdmissionResponse :=
  { UID := ar.UID
    Allowed := true
    Result := some { Status := "Success", Message := "" }
    Patch := patch
    PatchType := some PatchTypeJSONPatch }

/-! ## Lemmas on the embedding -/

theorem scanMatchFields_eq (cs : List NodeSelectorRequirement) :
    scanMatchFields cs =
      match firstNameClause cs with
      | none => none
      | some c =>
        match c.Values with
        | [] => some (.panic indexOutOfRange)
        | v :: _ => some (.ok (v, none)) := by
  induction cs with
  | nil => rfl
  | cons c cs ih =>
    by_cases h : c.Key = "metadata.name"
    · simp only [scanMatchFields, firstNameClause, h, if_true]
    · simp only [scanMatchFields, firstNameClause, h, if_false]
      exact ih

theorem firstNameClause_append (xs ys : List NodeSelectorRequirement) :
    firstNameClause (xs ++ ys) =
      match firstNameClause xs with
      | some c => some c
      | none => firstNameClause ys := by
  induction xs with
  | nil => rfl
  | cons c cs ih =>
    by_cases h : c.Key = "metadata.name"
    · simp [firstNameClause, h]
    · simpa [firstNameClause, h] using ih

theorem scanTerms_eq (ts : List NodeSelectorTerm) :
    scanTerms ts =
      match firstNameClause (matchFieldClauses ts) with
      | none => .ok ("", some errNodeNotFound)
      | some c =>
        match c.Values with
        | [] => .panic indexOutOfRange
        | v :: _ => .ok (v, none) := by
  induction ts with
  | nil => rfl
  | cons t ts ih =>
    simp only [scanTerms, matchFieldClauses, firstNameClause_append, scanMatchFields_eq]
    cases hc : firstNameClause t.MatchFields with
    | none => simpa using ih
    | some c => cases hv : c.Values <;> simp [hv]

theorem getNodeNameFromPod_of_requiredTerms (pod : Pod) (ts : List NodeSelectorTerm)
    (h : requiredTerms pod = some ts) : getNodeNameFromPod (some pod) = scanTerms ts := by
  cases ha : pod.Spec.Affinity with
  | none => simp [requiredTerms, ha] at h
  | some a =>
    cases hn : a.NodeAffinity with
    | none => simp [requiredTerms, ha, hn] at h
    | some n =>
      cases hr : n.RequiredDuringSchedulingIgnoredDuringExecution with
      | none => simp [requiredTerms, ha, hn, hr] at h
      | some sel =>
        simp only [requiredTerms, ha, hn, hr, Option.some.injEq] at h
        simp [getNodeNameFromPod, ha, hn, hr, h]

theorem getNodeNameFromPod_of_requiredTerms_none (pod : Pod)
    (h : requiredTerms pod = none) : getNodeNameFromPod (some pod) = .panic nilDereference := by
  cases ha : pod.Spec.Affinity with
  | none => simp [getNodeNameFromPod, ha]
  | some a =>
    cases hn : a.NodeAffinity with
    | none => simp [getNodeNameFromPod, ha, hn]
    | some n =>
      cases hr : n.RequiredDuringSchedulingIgnoredDuringExecution with
      | none => simp [getNodeNameFromPod, ha, hn, hr]
      | some sel => simp [requiredTerms, ha, hn, hr] at h

theorem mutateDaemonSetPod_res (cs : Clientset) (pod : Option Pod) (patch : List PatchOp)
    (verbose : Bool) :
    (mutateDaemonSetPod cs pod patch verbose).res = .ok patch ∨
      ∃ msg, (mutateDaemonSetPod cs pod patch verbose).res = .panic msg := by
  unfold mutateDaemonSetPod
  repeat' split
  all_goals simp

theorem mutateDaemonSetPod_no_owner (cs : Clientset) (pod : Pod) (patch : List PatchOp)
    (verbose : Bool) (h : pod.ObjectMeta.OwnerReferences = []) :
    mutateDaemonSetPod cs (some pod) patch verbose = ⟨[], .ok patch⟩ := by
  simp [mutateDaemonSetPod, h]

theorem Mutate_res (J : Json) (body : Bytes) (verbose : Bool) (cs : Clientset) :
    (Mutate J body verbose cs).res =
      match J.unmarshalReview body with
      | .error e => .ok (none, some ("unmarshaling request failed with " ++ e))
      | .ok admReview =>
        match admReview.Request with
        | none => .ok (some [], none)
        | some ar =>
          match J.unmarshalPod ar.Object.Raw with
          | .error e => .ok (none, some ("unable unmarshal pod json object " ++ e))
          | .ok pod =>
            match (mutateDaemonSetPod cs pod [] verbose).res with
            | .panic msg => .panic msg
            | .ok _ =>
              match J.marshalReview
                  { admReview with Response := some (responseFor ar (some (bytesOf "[]"))) } with
              | .error e => .ok (none, some e)
              | .ok b => .ok (some b, none) := by
  unfold Mutate
  cases hr : J.unmarshalReview body with
  | error e => rfl
  | ok admReview =>
    cases hq : admReview.Request with
    | none => simp [hq]
    | some ar =>
      cases hp : J.unmarshalPod ar.Object.Raw with
      | error e => simp [hq, hp]
      | ok pod =>
        rcases mutateDaemonSetPod_res cs pod [] verbose with hm | ⟨msg, hm⟩
        · simp only [hq, hp, hm, J.marshalPatch_nil, bytesOrNil, responseFor]
          cases J.marshalReview _ <;> rfl
        · simp [hq, hp, hm]

theorem Mutate_request (J : Json) (body : Bytes) (verbose : Bool) (cs : Clientset)
    (admReview : AdmissionReview) (ar : AdmissionRequest) (pod : Option Pod)
    (hrev : J.unmarshalReview body = .ok admReview)
    (hreq : admReview.Request = some ar)
    (hpod : J.unmarshalPod ar.Object.Raw = .ok pod) :
    Mutate J body verbose cs =
      match (mutateDaemonSetPod cs pod [] verbose).res with
      | .panic msg =>
        ⟨(if verbose then [.log (.recv body)] else [])
            ++ (mutateDaemonSetPod cs pod [] verbose).trace, .panic msg⟩
      | .ok _ =>
        match J.marshalReview
            { admReview with Response := some (responseFor ar (some (bytesOf "[]"))) } with
        | .error e =>
          ⟨(if verbose then [.log (.recv body)] else [])
              ++ (mutateDaemonSetPod cs pod [] verbose).trace ++ [.log (.patch [])],
            .ok (none, some e)⟩
        | .ok b =>
          ⟨(if verbose then [.log (.recv body)] else [])
              ++ (mutateDaemonSetPod cs pod [] verbose).trace ++ [.log (.patch [])]
              ++ (if verbose then [.log (.resp b)] else []),
            .ok (some b, none)⟩ := by
  unfold Mutate
  rw [hrev]
  rcases mutateDaemonSetPod_res cs pod [] verbose with hm | ⟨msg, hm⟩
  · simp only [hreq, hpod, hm, J.marshalPatch_nil, bytesOrNil, responseFor]
  · simp [hreq, hpod, hm]

theorem lookups_append (xs ys : List Effect) : lookups (xs ++ ys) = lookups xs ++ lookups ys := by
  induction xs with
  | nil => rfl
  | cons x xs ih => cases x <;> simp [lookups, ih]

theorem getNodeNameFromPod_congr (p q : Pod) (h : p.Spec = q.Spec) :
    getNodeNameFromPod (some p) = getNodeNameFromPod (some q) := by
  simp [getNodeNameFromPod, h]

theorem mutateDaemonSetPod_other_owner (cs : Clientset) (pod : Pod) (patch : List PatchOp)
    (verbose : Bool) (o : OwnerReference) (rest : List OwnerReference)
    (hO : pod.ObjectMeta.OwnerReferences = o :: rest) (hk : o.Kind ≠ "DaemonSet") :
    mutateDaemonSetPod cs (some pod) patch verbose =
      ⟨if verbose then [.log (.ownerKind o.Kind)] else [], .ok patch⟩ := by
  simp [mutateDaemonSetPod, hO, hk]

theorem mutateDaemonSetPod_resolve_mem (cs : Clientset) (pod : Pod) (patch : List PatchOp)
    (verbose : Bool) (o : OwnerReference) (rest : List OwnerReference)
    (hO : pod.ObjectMeta.OwnerReferences = o :: rest) (hk : o.Kind = "DaemonSet") :
    Effect.resolve ∈ (mutateDaemonSetPod cs (some pod) patch verbose).trace := by
  simp only [mutateDaemonSetPod, hO, hk, if_true]
  repeat' split
  all_goals simp

theorem firstNameClause_of_split (pre post : List NodeSelectorRequirement)
    (c : NodeSelectorRequirement) (hpre : ∀ x ∈ pre, x.Key ≠ "metadata.name")
    (hkey : c.Key = "metadata.name") : firstNameClause (pre ++ c :: post) = some c := by
  induction pre with
  | nil => simp [firstNameClause, hkey]
  | cons x xs ih =>
    have hx : x.Key ≠ "metadata.name" := hpre x (List.mem_cons_self x xs)
    have hxs : ∀ y ∈ xs, y.Key ≠ "metadata.name" := fun y hy => hpre y (List.mem_cons_of_mem x hy)
    simpa [firstNameClause, hx] using ih hxs

/-! ## The claims -/

/-- C1 (code defect).  The request below decodes to a review with a request
whose object decodes to a pod, yet `Mutate` does not return a response that
echoes the request uid: for either value of `verbose` and every cluster state
the call panics, because the pod is owned by a DaemonSet and its node affinity
has no required selector. -/
theorem Mutate_no_uid_echo_without_required_selector :
    sampleJson.unmarshalReview (reviewBody rawDaemonSetNoRequired)
        = .ok (reviewOf rawDaemonSetNoRequired) ∧
      (reviewOf rawDaemonSetNoRequired).Request.map (fun ar => (ar.UID, ar.Object.Raw))
        = some (sampleUID, rawDaemonSetNoRequired) ∧
      sampleJson.unmarshalPod rawDaemonSetNoRequired = .ok (some podDaemonSetNoRequired) ∧
      ∀ (verbose : Bool) (cs : Clientset),
        (Mutate sampleJson (reviewBody rawDaemonSetNoRequired) verbose cs).res
          = .panic nilDereference := by
  have h1 : sampleJson.unmarshalReview (reviewBody rawDaemonSetNoRequired)
      = .ok (reviewOf rawDaemonSetNoRequired) := by
    set_option maxRecDepth 100000 in rfl
  have h3 : sampleJson.unmarshalPod rawDaemonSetNoRequired
      = .ok (some podDaemonSetNoRequired) := by
    set_option maxRecDepth 100000 in rfl
  refine ⟨h1, rfl, h3, ?_⟩
  intro verbose cs
  rw [Mutate_res, h1]
  simp only [reviewOf, h3]
  cases verbose <;> rfl

/-- C2 (code defect).  The request below carries a pod whose first owner
reference has kind `DaemonSet` and which has no affinity.  The resolver does
not fail with an error there: it panics, and so does `Mutate`, for either
value of `verbose` and every cluster state, after the call of the resolver and
before any node lookup.  No response, allowed or not, is returned. -/
theorem Mutate_panics_on_absent_affinity :
    sampleJson.unmarshalReview (reviewBody rawDaemonSetNoAffinity)
        = .ok (reviewOf rawDaemonSetNoAffinity) ∧
      sampleJson.unmarshalPod rawDaemonSetNoAffinity = .ok (some podDaemonSetNoAffinity) ∧
      podDaemonSetNoAffinity.ObjectMeta.OwnerReferences.map (fun o => o.Kind) = ["DaemonSet"] ∧
      podDaemonSetNoAffinity.Spec.Affinity = none ∧
      ∀ (verbose : Bool) (cs : Clientset),
        Mutate sampleJson (reviewBody rawDaemonSetNoAffinity) verbose cs =
          ⟨(if verbose then
              [.log (.recv (reviewBody rawDaemonSetNoAffinity)), .log (.ownerKind "DaemonSet")]
            else []) ++ [.resolve],
            .panic nilDereference⟩ := by
  have h1 : sampleJson.unmarshalReview (reviewBody rawDaemonSetNoAffinity)
      = .ok (reviewOf rawDaemonSetNoAffinity) := by
    set_option maxRecDepth 100000 in rfl
  have h3 : sampleJson.unmarshalPod rawDaemonSetNoAffinity
      = .ok (some podDaemonSetNoAffinity) := by
    set_option maxRecDepth 100000 in rfl
  refine ⟨h1, h3, rfl, rfl, ?_⟩
  intro verbose cs
  unfold Mutate
  rw [h1]
  simp only [reviewOf, h3]
  cases verbose <;> rfl

/-- C3 (code defect).  When the affinity substructure of a pod is absent at
any of its three levels (`Spec.Affinity`, `NodeAffinity`, the required
selector), `getNodeNameFromPod` does not return the not-found error: it panics
on the read through the nil pointer.  The not-found error is returned only
when the substructure is present and holds no clause with the key (shown here
for the empty list of term groups). -/
theorem getNodeNameFromPod_panics_on_absent_affinity (om : ObjectMeta)
    (scheduler node : String) :
    getNodeNameFromPod (some ⟨om, ⟨scheduler, node, none⟩⟩) = .panic nilDereference ∧
      getNodeNameFromPod (some ⟨om, ⟨scheduler, node, some ⟨none⟩⟩⟩) = .panic nilDereference ∧
      getNodeNameFromPod (some ⟨om, ⟨scheduler, node, some ⟨some ⟨none⟩⟩⟩⟩)
        = .panic nilDereference ∧
      getNodeNameFromPod (some ⟨om, ⟨scheduler, node, some ⟨some ⟨some ⟨[]⟩⟩⟩⟩⟩)
        = .ok ("", some errNodeNotFound) :=
  ⟨rfl, rfl, rfl, rfl⟩

/-- C4 (counterexample).  The pod `podDaemonSetNoValue` has a match-field
clause with key `metadata.name` in its required term groups, and
`getNodeNameFromPod` returns no node name for it: the clause has no value and
the call panics on `f.Values[0]`. -/
theorem getNodeNameFromPod_no_value :
    (∃ ts, requiredTerms podDaemonSetNoValue = some ts ∧
        ∃ c ∈ matchFieldClauses ts, c.Key = "metadata.name") ∧
      getNodeNameFromPod (some podDaemonSetNoValue) = .panic indexOutOfRange ∧
      ¬ ∃ v, getNodeNameFromPod (some podDaemonSetNoValue) = .ok (v, none) := by
  refine ⟨⟨_, rfl, _, List.mem_cons_self _ _, rfl⟩, rfl, ?_⟩
  rintro ⟨v, hv⟩
  have h : getNodeNameFromPod (some podDaemonSetNoValue) = .panic indexOutOfRange := rfl
  rw [h] at hv
  cases hv

/-- C4 (amended).  Let the affinity substructure of the pod be present with
required term groups `ts`, and let `c` be the first match-field clause with
key `metadata.name`, the clauses being ordered by term group first and by
position in the group second (every clause before `c` has another key).  If
`c` has a first value `v`, then `getNodeNameFromPod` returns `v` and no error.
Match-expression clauses play no part. -/
theorem getNodeNameFromPod_first_clause (pod : Pod) (ts : List NodeSelectorTerm)
    (pre post : List NodeSelectorRequirement) (c : NodeSelectorRequirement)
    (v : String) (vs : List String)
    (hts : requiredTerms pod = some ts)
    (hsplit : matchFieldClauses ts = pre ++ c :: post)
    (hpre : ∀ x ∈ pre, x.Key ≠ "metadata.name")
    (hkey : c.Key = "metadata.name")
    (hv : c.Values = v :: vs) :
    getNodeNameFromPod (some pod) = .ok (v, none) := by
  rw [getNodeNameFromPod_of_requiredTerms pod ts hts, scanTerms_eq, hsplit,
    firstNameClause_of_split pre post c hpre hkey]
  simp [hv]

/-- C4 (amended), at a pod with two term groups: the first group has only a
clause with another key and a match expression with the key, the second has
the clause that pins the pod to `ip-10-0-1-156`. -/
theorem getNodeNameFromPod_first_clause_witness :
    getNodeNameFromPod (some
      { ObjectMeta := metaDaemonSet
        Spec := specWithTerms
          [{ MatchExpressions := [{ Key := "metadata.name", Operator := "In", Values := ["x"] }]
             MatchFields := [{ Key := "metadata.namespace", Operator := "In", Values := ["y"] }] },
           { MatchExpressions := []
             MatchFields := [clausePinned,
               { Key := "metadata.name", Operator := "In", Values := ["z"] }] }] })
      = .ok ("ip-10-0-1-156", none) :=
  getNodeNameFromPod_first_clause _ _
    [{ Key := "metadata.namespace", Operator := "In", Values := ["y"] }]
    [{ Key := "metadata.name", Operator := "In", Values := ["z"] }]
    clausePinned "ip-10-0-1-156" [] rfl rfl (by decide) rfl rfl

/-- C5 (counterexample).  The body below decodes to a review without a
request; `Mutate` returns the empty byte sequence for it, and the empty byte
sequence is the encoding of no review: the result carries no response. -/
theorem Mutate_null_request_carries_no_response :
    sampleJson.unmarshalReview bodyNullRequest = .ok reviewNullRequest ∧
      reviewNullRequest.Request = none ∧
      (∀ (verbose : Bool) (cs : Clientset),
        (Mutate sampleJson bodyNullRequest verbose cs).res = .ok (some [], none)) ∧
      ∀ r : AdmissionReview, sampleJson.marshalReview r ≠ .ok [] := by
  have h1 : sampleJson.unmarshalReview bodyNullRequest = .ok reviewNullRequest := rfl
  refine ⟨h1, rfl, ?_, ?_⟩
  · intro verbose cs
    rw [Mutate_res, h1]
    rfl
  · intro r h
    have hb : bytesOf "\x7b" = [123] := rfl
    simp [sampleJson, sampleMarshalReview, hb] at h

/-- C5 (amended).  Let the body decode to a review with a request `ar` whose
object decodes, let the mutation step return, and let the outbound review
(the inbound one with the response of `responseFor`, which has
`allowed = true`) encode to `b`.  Then `Mutate` returns `b` and no error.
Moreover whatever bytes `Mutate` returns without error for this body are the
encoding of that review: no response with `allowed = false` is produced. -/
theorem Mutate_response_allowed (J : Json) (body : Bytes) (verbose : Bool) (cs : Clientset)
    (admReview : AdmissionReview) (ar : AdmissionRequest) (pod : Option Pod) (b : Bytes)
    (hrev : J.unmarshalReview body = .ok admReview)
    (hreq : admReview.Request = some ar)
    (hpod : J.unmarshalPod ar.Object.Raw = .ok pod)
    (hmut : (mutateDaemonSetPod cs pod [] verbose).res = .ok [])
    (henc : J.marshalReview
      { admReview with Response := some (responseFor ar (some (bytesOf "[]"))) } = .ok b) :
    (Mutate J body verbose cs).res = .ok (some b, none) ∧
      (responseFor ar (some (bytesOf "[]"))).Allowed = true ∧
      ∀ (verbose2 : Bool) (cs2 : Clientset) (b2 : Bytes),
        (Mutate J body verbose2 cs2).res = .ok (some b2, none) →
        J.marshalReview
          { admReview with Response := some (responseFor ar (some (bytesOf "[]"))) } = .ok b2 := by
  have henc2 := henc
  simp only [hreq] at henc2
  refine ⟨?_, rfl, ?_⟩
  · rw [Mutate_res, hrev]
    simp only [hreq, hpod, hmut, henc2]
  · intro verbose2 cs2 b2 h
    rw [Mutate_res, hrev] at h
    simp only [hreq, hpod] at h
    rcases mutateDaemonSetPod_res cs2 pod [] verbose2 with hm | ⟨msg, hm⟩
    · simp only [hm, henc2] at h
      rw [henc]
      simpa using h
    · simp [hm] at h

/-- C5 (amended), at the request for the pod pinned to `ip-10-0-1-156`, in the
cluster whose node carries the label. -/
theorem Mutate_response_allowed_witness :
    ∃ b, (Mutate sampleJson (reviewBody rawDaemonSetPinned) true sampleCluster).res
      = .ok (some b, none) :=
  ⟨_, (Mutate_response_allowed sampleJson (reviewBody rawDaemonSetPinned) true sampleCluster
    (reviewOf rawDaemonSetPinned)
    { UID := sampleUID, Name := "", Namespace := "", Operation := "CREATE"
      Object := { Raw := rawDaemonSetPinned }, OldObject := { Raw := [] } }
    (some podDaemonSetPinned) _
    (by set_option maxRecDepth 100000 in rfl) rfl
    (by set_option maxRecDepth 100000 in rfl) (by decide) rfl).1⟩

/-- C6.  When the request body does not decode into a review, `Mutate`
returns the nil byte slice and an error (the decoder's, wrapped), whatever the
cluster state; its only effect is the `recv` line of the verbose mode, so no
node lookup is made. -/
theorem Mutate_malformed_body (J : Json) (body : Bytes) (verbose : Bool) (cs : Clientset)
    (e : String) (hrev : J.unmarshalReview body = .error e) :
    Mutate J body verbose cs =
        ⟨if verbose then [.log (.recv body)] else [],
          .ok (none, some ("unmarshaling request failed with " ++ e))⟩ ∧
      lookups (Mutate J body verbose cs).trace = [] ∧
      Effect.resolve ∉ (Mutate J body verbose cs).trace := by
  have h : Mutate J body verbose cs =
      ⟨if verbose then [.log (.recv body)] else [],
        .ok (none, some ("unmarshaling request failed with " ++ e))⟩ := by
    unfold Mutate
    rw [hrev]
  rw [h]
  cases verbose <;> simp [lookups]

/-- C6, at a truncated document. -/
theorem Mutate_malformed_body_witness :
    (Mutate sampleJson bodyMalformed true sampleCluster).res =
      .ok (none, some "unmarshaling request failed with unexpected end of JSON input") :=
  congrArg Run.res
    (Mutate_malformed_body sampleJson bodyMalformed true sampleCluster
      "unexpected end of JSON input" (by set_option maxRecDepth 100000 in rfl)).1

/-- C7.  When the body decodes to a review with a request whose raw object
does not decode into a pod, `Mutate` returns the nil byte slice and an error
(the decoder's, wrapped); its only effect is the `recv` line of the verbose
mode: the owner references are not read (no `ownerKind` line), the resolver is
not called and no node lookup is made. -/
theorem Mutate_malformed_object (J : Json) (body : Bytes) (verbose : Bool) (cs : Clientset)
    (admReview : AdmissionReview) (ar : AdmissionRequest) (e : String)
    (hrev : J.unmarshalReview body = .ok admReview)
    (hreq : admReview.Request = some ar)
    (hpod : J.unmarshalPod ar.Object.Raw = .error e) :
    Mutate J body verbose cs =
        ⟨if verbose then [.log (.recv body)] else [],
          .ok (none, some ("unable unmarshal pod json object " ++ e))⟩ ∧
      lookups (Mutate J body verbose cs).trace = [] ∧
      Effect.resolve ∉ (Mutate J body verbose cs).trace ∧
      ∀ kind, Effect.log (.ownerKind kind) ∉ (Mutate J body verbose cs).trace := by
  have h : Mutate J body verbose cs =
      ⟨if verbose then [.log (.recv body)] else [],
        .ok (none, some ("unable unmarshal pod json object " ++ e))⟩ := by
    unfold Mutate
    rw [hrev]
    simp [hreq, hpod]
  rw [h]
  cases verbose <;> simp [lookups]

/-- C7, at a review whose object is a JSON string. -/
theorem Mutate_malformed_object_witness :
    (Mutate sampleJson (reviewBody rawNotAPod) false sampleCluster).res =
      .ok (none, some ("unable unmarshal pod json object "
        ++ "json: cannot unmarshal string into Go value of type v1.Pod")) :=
  congrArg Run.res
    (Mutate_malformed_object sampleJson (reviewBody rawNotAPod) false sampleCluster
      (reviewOf rawNotAPod)
      { UID := sampleUID, Name := "", Namespace := "", Operation := "CREATE"
        Object := { Raw := rawNotAPod }, OldObject := { Raw := [] } }
      "json: cannot unmarshal string into Go value of type v1.Pod"
      (by set_option maxRecDepth 100000 in rfl) rfl
      (by set_option maxRecDepth 100000 in rfl)).1

/-- C8.  When the body decodes to a review without a request, `Mutate`
returns no error and the empty byte slice (not nil, of length zero); its only
effects are the `recv` and `resp` lines of the verbose mode, so no node lookup
is made. -/
theorem Mutate_no_request (J : Json) (body : Bytes) (verbose : Bool) (cs : Clientset)
    (admReview : AdmissionReview)
    (hrev : J.unmarshalReview body = .ok admReview)
    (hreq : admReview.Request = none) :
    Mutate J body verbose cs =
        ⟨if verbose then [.log (.recv body), .log (.resp [])] else [], .ok (some [], none)⟩ ∧
      lookups (Mutate J body verbose cs).trace = [] ∧
      Effect.resolve ∉ (Mutate J body verbose cs).trace := by
  have h : Mutate J body verbose cs =
      ⟨if verbose then [.log (.recv body), .log (.resp [])] else [], .ok (some [], none)⟩ := by
    unfold Mutate
    rw [hrev]
    cases verbose <;> simp [hreq]
  rw [h]
  cases verbose <;> simp [lookups]

/-- C8, at the review `bodyNullRequest`. -/
theorem Mutate_no_request_witness :
    (Mutate sampleJson bodyNullRequest false sampleCluster).res = .ok (some [], none) :=
  congrArg Run.res
    (Mutate_no_request sampleJson bodyNullRequest false sampleCluster reviewNullRequest
      rfl rfl).1

/-- C9.  Whenever `Mutate` produces a response (the body decodes to a review
with a request and the call returns bytes `b` without error), `b` is the
encoding of the review whose response carries the patch `[]`, the two bytes of
the empty JSON array (present, not nil), and the patch logged before it is
serialized is the empty sequence.  This holds for every pod and every cluster
state, since `mutateDaemonSetPod` leaves the patch of its caller as it found
it whenever it returns. -/
theorem Mutate_patch_empty (J : Json) (body : Bytes) (verbose : Bool) (cs : Clientset)
    (admReview : AdmissionReview) (ar : AdmissionRequest) (b : Bytes)
    (hrev : J.unmarshalReview body = .ok admReview)
    (hreq : admReview.Request = some ar)
    (hret : (Mutate J body verbose cs).res = .ok (some b, none)) :
    J.marshalReview
        { admReview with Response := some (responseFor ar (some (bytesOf "[]"))) } = .ok b ∧
      (responseFor ar (some (bytesOf "[]"))).Patch = some [91, 93] ∧
      Effect.log (.patch []) ∈ (Mutate J body verbose cs).trace ∧
      ∀ (cs2 : Clientset) (pod : Option Pod) (patch : List PatchOp) (verbose2 : Bool),
        (mutateDaemonSetPod cs2 pod patch verbose2).res = .ok patch ∨
          ∃ msg, (mutateDaemonSetPod cs2 pod patch verbose2).res = .panic msg := by
  refine ⟨?_, rfl, ?_, fun cs2 pod patch verbose2 => mutateDaemonSetPod_res cs2 pod patch verbose2⟩
  · rw [Mutate_res, hrev] at hret
    simp only [hreq] at hret
    cases hp : J.unmarshalPod ar.Object.Raw with
    | error e => simp [hp] at hret
    | ok pod =>
      simp only [hp] at hret
      rcases mutateDaemonSetPod_res cs pod [] verbose with hm | ⟨msg, hm⟩
      · simp only [hm] at hret
        cases he : J.marshalReview
            { admReview with Response := some (responseFor ar (some (bytesOf "[]"))) } with
        | error e =>
          simp only [hreq] at he
          simp [he] at hret
        | ok b2 =>
          simp only [hreq] at he
          simp only [he] at hret
          simpa using hret
      · simp [hm] at hret
  · cases hp : J.unmarshalPod ar.Object.Raw with
    | error e =>
      rw [Mutate_res, hrev] at hret
      simp [hreq, hp] at hret
    | ok pod =>
      have hM := Mutate_request J body verbose cs admReview ar pod hrev hreq hp
      rw [hM] at hret ⊢
      rcases mutateDaemonSetPod_res cs pod [] verbose with hm | ⟨msg, hm⟩
      · simp only [hm] at hret ⊢
        cases he : J.marshalReview
            { admReview with Response := some (responseFor ar (some (bytesOf "[]"))) } with
        | error e => simp [he] at hret
        | ok b2 => simp
      · simp [hm] at hret

/-- C9, at the request for the pod pinned to `ip-10-0-1-156`, in the cluster
whose node carries the label `visenze.component`: the label is found and the
patch stays empty. -/
theorem Mutate_patch_empty_witness :
    Effect.log (.foundLabel "worker")
        ∈ (Mutate sampleJson (reviewBody rawDaemonSetPinned) false sampleCluster).trace ∧
      Effect.log (.patch [])
        ∈ (Mutate sampleJson (reviewBody rawDaemonSetPinned) false sampleCluster).trace :=
  ⟨by set_option maxRecDepth 100000 in decide,
    (Mutate_patch_empty sampleJson (reviewBody rawDaemonSetPinned) false sampleCluster
      (reviewOf rawDaemonSetPinned)
      { UID := sampleUID, Name := "", Namespace := "", Operation := "CREATE"
        Object := { Raw := rawDaemonSetPinned }, OldObject := { Raw := [] } }
      _ (by set_option maxRecDepth 100000 in rfl) rfl
      (by set_option maxRecDepth 100000 in rfl)).2.2.1⟩

/-- C10.  For every pod, `mutateDaemonSetPod` calls `getNodeNameFromPod` if
and only if the owner references are not empty and the kind of the first one
is the literal `DaemonSet`; the owner references after the first do not
matter to the call; no node is looked up unless the resolver was called.  For
a request whose pod has no owner reference (`pod0`), `Mutate` calls no
resolver, looks up no node, and returns the encoding of the review whose
response carries the empty patch. -/
theorem mutateDaemonSetPod_resolves_iff (cs : Clientset) (pod : Pod) (patch : List PatchOp)
    (verbose : Bool) (J : Json) (body : Bytes) (admReview : AdmissionReview)
    (ar : AdmissionRequest) (pod0 : Pod) (b : Bytes)
    (hrev : J.unmarshalReview body = .ok admReview)
    (hreq : admReview.Request = some ar)
    (hpod : J.unmarshalPod ar.Object.Raw = .ok (some pod0))
    (hown : pod0.ObjectMeta.OwnerReferences = [])
    (henc : J.marshalReview
      { admReview with Response := some (responseFor ar (some (bytesOf "[]"))) } = .ok b) :
    (Effect.resolve ∈ (mutateDaemonSetPod cs (some pod) patch verbose).trace ↔
        ∃ o rest, pod.ObjectMeta.OwnerReferences = o :: rest ∧ o.Kind = "DaemonSet") ∧
      (∀ (o : OwnerReference) (rest rest2 : List OwnerReference),
        mutateDaemonSetPod cs
            (some { pod with ObjectMeta := { pod.ObjectMeta with OwnerReferences := o :: rest } })
            patch verbose =
          mutateDaemonSetPod cs
            (some { pod with ObjectMeta := { pod.ObjectMeta with OwnerReferences := o :: rest2 } })
            patch verbose) ∧
      (Effect.resolve ∉ (mutateDaemonSetPod cs (some pod) patch verbose).trace →
        lookups (mutateDaemonSetPod cs (some pod) patch verbose).trace = []) ∧
      Mutate J body verbose cs =
        ⟨(if verbose then [.log (.recv body)] else []) ++ [.log (.patch [])]
            ++ (if verbose then [.log (.resp b)] else []),
          .ok (some b, none)⟩ ∧
      Effect.resolve ∉ (Mutate J body verbose cs).trace ∧
      lookups (Mutate J body verbose cs).trace = [] := by
  have hM : Mutate J body verbose cs =
      ⟨(if verbose then [.log (.recv body)] else []) ++ [.log (.patch [])]
          ++ (if verbose then [.log (.resp b)] else []),
        .ok (some b, none)⟩ := by
    rw [Mutate_request J body verbose cs admReview ar (some pod0) hrev hreq hpod,
      mutateDaemonSetPod_no_owner cs pod0 [] verbose hown]
    simp [henc]
  refine ⟨?_, ?_, ?_, hM, ?_, ?_⟩
  · cases hO : pod.ObjectMeta.OwnerReferences with
    | nil => simp [mutateDaemonSetPod, hO]
    | cons o rest =>
      by_cases hk : o.Kind = "DaemonSet"
      · constructor
        · intro _
          exact ⟨o, rest, rfl, hk⟩
        · intro _
          exact mutateDaemonSetPod_resolve_mem cs pod patch verbose o rest hO hk
      · rw [mutateDaemonSetPod_other_owner cs pod patch verbose o rest hO hk]
        constructor
        · intro h
          cases verbose <;> simp at h
        · rintro ⟨o2, rest2, h2, hk2⟩
          simp only [List.cons.injEq] at h2
          exact absurd (h2.1 ▸ hk2) hk
  · intro o rest rest2
    simp only [mutateDaemonSetPod]
    rw [getNodeNameFromPod_congr
      { pod with ObjectMeta := { pod.ObjectMeta with OwnerReferences := o :: rest } }
      { pod with ObjectMeta := { pod.ObjectMeta with OwnerReferences := o :: rest2 } } rfl]
  · intro h
    cases hO : pod.ObjectMeta.OwnerReferences with
    | nil => rw [mutateDaemonSetPod_no_owner cs pod patch verbose hO]; rfl
    | cons o rest =>
      by_cases hk : o.Kind = "DaemonSet"
      · exact absurd (mutateDaemonSetPod_resolve_mem cs pod patch verbose o rest hO hk) h
      · rw [mutateDaemonSetPod_other_owner cs pod patch verbose o rest hO hk]
        cases verbose <;> rfl
  · rw [hM]
    cases verbose <;> simp
  · rw [hM]
    cases verbose <;> simp [lookups]

/-- C10, at the request for the pod without owner references and, for the
call of the resolver, at the DaemonSet pod pinned to `ip-10-0-1-156`. -/
theorem mutateDaemonSetPod_resolves_iff_witness :
    (Effect.resolve ∈ (mutateDaemonSetPod sampleCluster (some podDaemonSetPinned) [] true).trace ↔
        ∃ o rest, podDaemonSetPinned.ObjectMeta.OwnerReferences = o :: rest ∧
          o.Kind = "DaemonSet") ∧
      Effect.resolve ∉ (Mutate sampleJson (reviewBody rawBare) true sampleCluster).trace ∧
      lookups (Mutate sampleJson (reviewBody rawBare) true sampleCluster).trace = [] :=
  have h := mutateDaemonSetPod_resolves_iff sampleCluster podDaemonSetPinned [] true sampleJson
    (reviewBody rawBare) (reviewOf rawBare)
    { UID := sampleUID, Name := "", Namespace := "", Operation := "CREATE"
      Object := { Raw := rawBare }, OldObject := { Raw := [] } }
    podBare _ (by set_option maxRecDepth 100000 in rfl) rfl
    (by set_option maxRecDepth 100000 in rfl) rfl rfl
  ⟨h.1, h.2.2.2.2.1, h.2.2.2.2.2⟩

/-! ## Lemmas on results and node lookups -/

theorem mutateDaemonSetPod_res_eq (cs : Clientset) (pod : Option Pod) (patch : List PatchOp)
    (verbose : Bool) :
    (mutateDaemonSetPod cs pod patch verbose).res =
      match pod with
      | none => .panic nilDereference
      | some p =>
        match p.ObjectMeta.OwnerReferences with
        | [] => .ok patch
        | o :: _ =>
          if o.Kind = "DaemonSet" then
            match getNodeNameFromPod pod with
            | .panic msg => .panic msg
            | .ok _ => .ok patch
          else .ok patch := by
  cases pod with
  | none => rfl
  | some p =>
    cases hO : p.ObjectMeta.OwnerReferences with
    | nil => simp [mutateDaemonSetPod, hO]
    | cons o rest =>
      by_cases hk : o.Kind = "DaemonSet"
      · simp only [mutateDaemonSetPod, hO, hk, if_true]
        cases hg : getNodeNameFromPod (some p) with
        | panic msg => rfl
        | ok r =>
          obtain ⟨n, err⟩ := r
          cases err with
          | some e => rfl
          | none =>
            simp only []
            cases hc : cs n with
            | error e => rfl
            | ok node =>
              simp only []
              cases node.Labels.lookup "visenze.component" <;> rfl
      · simp [mutateDaemonSetPod, hO, hk]

theorem mutateDaemonSetPod_lookups (cs : Clientset) (pod : Option Pod) (patch : List PatchOp)
    (verbose : Bool) :
    lookups (mutateDaemonSetPod cs pod patch verbose).trace =
      match pod with
      | none => []
      | some p =>
        match p.ObjectMeta.OwnerReferences with
        | [] => []
        | o :: _ =>
          if o.Kind = "DaemonSet" then
            match getNodeNameFromPod pod with
            | .ok (n, none) => [n]
            | _ => []
          else [] := by
  cases pod with
  | none => rfl
  | some p =>
    cases hO : p.ObjectMeta.OwnerReferences with
    | nil => simp [mutateDaemonSetPod, hO, lookups]
    | cons o rest =>
      by_cases hk : o.Kind = "DaemonSet"
      · simp only [mutateDaemonSetPod, hO, hk, if_true]
        cases hg : getNodeNameFromPod (some p) with
        | panic msg => cases verbose <;> simp [lookups]
        | ok r =>
          obtain ⟨n, err⟩ := r
          cases err with
          | some e => cases verbose <;> simp [lookups]
          | none =>
            simp only []
            cases hc : cs n with
            | error e => cases verbose <;> simp [lookups]
            | ok node =>
              simp only []
              cases node.Labels.lookup "visenze.component" <;> cases verbose <;> simp [lookups]
      · simp only [mutateDaemonSetPod, hO, hk, if_false]
        cases verbose <;> simp [lookups]

theorem Mutate_lookups (J : Json) (body : Bytes) (verbose : Bool) (cs : Clientset) :
    lookups (Mutate J body verbose cs).trace =
      match J.unmarshalReview body with
      | .error _ => []
      | .ok admReview =>
        match admReview.Request with
        | none => []
        | some ar =>
          match J.unmarshalPod ar.Object.Raw with
          | .error _ => []
          | .ok pod => lookups (mutateDaemonSetPod cs pod [] verbose).trace := by
  cases hr : J.unmarshalReview body with
  | error e =>
    simp only [Mutate, hr]
    cases verbose <;> rfl
  | ok admReview =>
    cases hq : admReview.Request with
    | none =>
      simp only [Mutate, hr, hq]
      cases verbose <;> rfl
    | some ar =>
      cases hp : J.unmarshalPod ar.Object.Raw with
      | error e =>
        simp only [Mutate, hr, hq, hp]
        cases verbose <;> rfl
      | ok pod =>
        rw [Mutate_request J body verbose cs admReview ar pod hr hq hp]
        simp only []
        cases (mutateDaemonSetPod cs pod [] verbose).res with
        | panic msg => cases verbose <;> simp [lookups_append, lookups, hq, hp]
        | ok p =>
          cases J.marshalReview
              { admReview with Response := some (responseFor ar (some (bytesOf "[]"))) } with
          | error e => cases verbose <;> simp [lookups_append, lookups, hq, hp]
          | ok b => cases verbose <;> simp [lookups_append, lookups, hq, hp]

theorem Mutate_returns_encoding (J : Json) (body : Bytes) (verbose : Bool) (cs : Clientset)
    (admReview : AdmissionReview) (ar : AdmissionRequest) (b : Bytes)
    (hrev : J.unmarshalReview body = .ok admReview)
    (hreq : admReview.Request = some ar)
    (hret : (Mutate J body verbose cs).res = .ok (some b, none)) :
    J.marshalReview
      { admReview with Response := some (responseFor ar (some (bytesOf "[]"))) } = .ok b := by
  rw [Mutate_res, hrev] at hret
  simp only [hreq] at hret
  cases hp : J.unmarshalPod ar.Object.Raw with
  | error e => simp [hp] at hret
  | ok pod =>
    simp only [hp] at hret
    rcases mutateDaemonSetPod_res cs pod [] verbose with hm | ⟨msg, hm⟩
    · simp only [hm] at hret
      cases he : J.marshalReview
          { admReview with Response := some (responseFor ar (some (bytesOf "[]"))) } with
      | error e =>
        simp only [hreq] at he
        simp [he] at hret
      | ok b2 =>
        simp only [hreq] at he
        simp only [he] at hret
        simpa using hret
    · simp [hm] at hret

theorem mutateDaemonSetPod_labelled (cs : Clientset) (pod : Pod) (patch : List PatchOp)
    (verbose : Bool) (o : OwnerReference) (rest : List OwnerReference) (n : String)
    (node : Node) (val : String)
    (hown : pod.ObjectMeta.OwnerReferences = o :: rest) (hkind : o.Kind = "DaemonSet")
    (hname : getNodeNameFromPod (some pod) = .ok (n, none))
    (hnode : cs n = .ok node)
    (hlabel : node.Labels.lookup "visenze.component" = some val) :
    mutateDaemonSetPod cs (some pod) patch verbose =
      ⟨(if verbose then [.log (.ownerKind o.Kind)] else []) ++ [.resolve]
          ++ (if verbose then
                [.log (.nodeName n), .log (.schedulerName pod.Spec.SchedulerName)]
              else [])
          ++ [.getNode n, .log (.foundLabel val)],
        .ok patch⟩ := by
  simp only [mutateDaemonSetPod, hown, hkind, if_true, hname, hnode, hlabel]

/-! ## The claims on the response, on determinism and on effects -/

/-- C11.  Let the body decode to a review with a request whose object decodes
to a pod whose first owner reference has kind `DaemonSet` and whose first
match-field clause with key `metadata.name` has the first value `n`; let the
cluster return for `n` a node that carries the label `visenze.component`, and
let the outbound review encode to `b`.  Then `Mutate` returns `b` and no
error, after the one lookup of `n` and after finding the label, and the
response of the encoded review has `allowed = true`, `patchType = JSONPatch`,
the patch `[]` and `result.status = Success`.  Moreover on every path on
which `Mutate` returns bytes for a review with a request, the encoded response
is that of `responseFor`, whose status is `Success`. -/
theorem Mutate_labelled_node (J : Json) (body : Bytes) (verbose : Bool) (cs : Clientset)
    (admReview : AdmissionReview) (ar : AdmissionRequest) (pod : Pod)
    (o : OwnerReference) (rest : List OwnerReference) (ts : List NodeSelectorTerm)
    (pre post : List NodeSelectorRequirement) (c : NodeSelectorRequirement)
    (n : String) (vs : List String) (node : Node) (val : String) (b : Bytes)
    (hrev : J.unmarshalReview body = .ok admReview)
    (hreq : admReview.Request = some ar)
    (hpod : J.unmarshalPod ar.Object.Raw = .ok (some pod))
    (hown : pod.ObjectMeta.OwnerReferences = o :: rest)
    (hkind : o.Kind = "DaemonSet")
    (hts : requiredTerms pod = some ts)
    (hsplit : matchFieldClauses ts = pre ++ c :: post)
    (hpre : ∀ x ∈ pre, x.Key ≠ "metadata.name")
    (hkey : c.Key = "metadata.name")
    (hv : c.Values = n :: vs)
    (hnode : cs n = .ok node)
    (hlabel : node.Labels.lookup "visenze.component" = some val)
    (henc : J.marshalReview
      { admReview with Response := some (responseFor ar (some (bytesOf "[]"))) } = .ok b) :
    (Mutate J body verbose cs).res = .ok (some b, none) ∧
      lookups (Mutate J body verbose cs).trace = [n] ∧
      Effect.log (.foundLabel val) ∈ (Mutate J body verbose cs).trace ∧
      (responseFor ar (some (bytesOf "[]"))).Allowed = true ∧
      (responseFor ar (some (bytesOf "[]"))).PatchType = some "JSONPatch" ∧
      (responseFor ar (some (bytesOf "[]"))).Patch = some [91, 93] ∧
      (responseFor ar (some (bytesOf "[]"))).Result = some { Status := "Success", Message := "" } ∧
      ∀ (body2 : Bytes) (verbose2 : Bool) (cs2 : Clientset) (admReview2 : AdmissionReview)
        (ar2 : AdmissionRequest) (b2 : Bytes),
        J.unmarshalReview body2 = .ok admReview2 → admReview2.Request = some ar2 →
        (Mutate J body2 verbose2 cs2).res = .ok (some b2, none) →
        J.marshalReview
            { admReview2 with Response := some (responseFor ar2 (some (bytesOf "[]"))) } = .ok b2 ∧
          (responseFor ar2 (some (bytesOf "[]"))).Result
            = some { Status := "Success", Message := "" } := by
  have hname : getNodeNameFromPod (some pod) = .ok (n, none) := by
    rw [getNodeNameFromPod_of_requiredTerms pod ts hts, scanTerms_eq, hsplit,
      firstNameClause_of_split pre post c hpre hkey]
    simp [hv]
  have hm := mutateDaemonSetPod_labelled cs pod [] verbose o rest n node val hown hkind hname
    hnode hlabel
  have henc2 := henc
  simp only [hreq] at henc2
  have hM := Mutate_request J body verbose cs admReview ar (some pod) hrev hreq hpod
  rw [hm] at hM
  simp only [hreq, henc2] at hM
  refine ⟨?_, ?_, ?_, rfl, rfl, rfl, rfl, ?_⟩
  · rw [hM]
  · rw [hM]
    cases verbose <;> simp [lookups]
  · rw [hM]
    cases verbose <;> simp
  · intro body2 verbose2 cs2 admReview2 ar2 b2 h1 h2 h3
    exact ⟨Mutate_returns_encoding J body2 verbose2 cs2 admReview2 ar2 b2 h1 h2 h3, rfl⟩

/-- C11, at the scenario of the specification: the DaemonSet pod pinned to
`ip-10-0-1-156`, in the cluster whose node carries
`visenze.component=worker`. -/
theorem Mutate_labelled_node_witness :
    (∃ b, (Mutate sampleJson (reviewBody rawDaemonSetPinned) true sampleCluster).res
        = .ok (some b, none)) ∧
      lookups (Mutate sampleJson (reviewBody rawDaemonSetPinned) true sampleCluster).trace
        = ["ip-10-0-1-156"] :=
  have h := Mutate_labelled_node sampleJson (reviewBody rawDaemonSetPinned) true sampleCluster
    (reviewOf rawDaemonSetPinned)
    { UID := sampleUID, Name := "", Namespace := "", Operation := "CREATE"
      Object := { Raw := rawDaemonSetPinned }, OldObject := { Raw := [] } }
    podDaemonSetPinned ownerDaemonSet [] _ [] [] clausePinned "ip-10-0-1-156" []
    { Name := "ip-10-0-1-156", Labels := [("visenze.component", "worker")] } "worker" _
    (by set_option maxRecDepth 100000 in rfl) rfl
    (by set_option maxRecDepth 100000 in rfl) rfl rfl rfl rfl (by simp) rfl rfl rfl rfl rfl
  ⟨⟨_, h.1⟩, h.2.1⟩

/-- C13.  For every body and every cluster state, `Mutate` with
`verbose = true` and with `verbose = false` has the same result (the same
bytes, the same error, the same panic) and makes the same node lookups: the
toggle only adds lines to the log. -/
theorem Mutate_verbose_irrelevant (J : Json) (body : Bytes) (cs : Clientset) :
    (Mutate J body true cs).res = (Mutate J body false cs).res ∧
      lookups (Mutate J body true cs).trace = lookups (Mutate J body false cs).trace := by
  constructor
  · rw [Mutate_res, Mutate_res]
    simp only [mutateDaemonSetPod_res_eq]
  · rw [Mutate_lookups, Mutate_lookups]
    simp only [mutateDaemonSetPod_lookups]

/-- C14.  `Mutate` makes at most one node lookup, and the only cluster
operation it has is that read (`Effect.getNode`; the code calls nothing else
of the client).  When the lookup is made, the body decoded to a review with a
request whose object decoded to a pod, and the key of the lookup is the node
name that `getNodeNameFromPod` returns, without error, for that pod. -/
theorem Mutate_single_lookup (J : Json) (body : Bytes) (verbose : Bool) (cs : Clientset) :
    lookups (Mutate J body verbose cs).trace = [] ∨
      ∃ (admReview : AdmissionReview) (ar : AdmissionRequest) (pod : Option Pod) (n : String),
        J.unmarshalReview body = .ok admReview ∧ admReview.Request = some ar ∧
        J.unmarshalPod ar.Object.Raw = .ok pod ∧
        getNodeNameFromPod pod = .ok (n, none) ∧
        lookups (Mutate J body verbose cs).trace = [n] := by
  have hL := Mutate_lookups J body verbose cs
  cases hr : J.unmarshalReview body with
  | error e =>
    left
    rw [hL, hr]
  | ok admReview =>
    cases hq : admReview.Request with
    | none =>
      left
      rw [hL, hr]
      simp only [hq]
    | some ar =>
      cases hp : J.unmarshalPod ar.Object.Raw with
      | error e =>
        left
        rw [hL, hr]
        simp only [hq, hp]
      | ok pod =>
        have hL2 : lookups (Mutate J body verbose cs).trace
            = lookups (mutateDaemonSetPod cs pod [] verbose).trace := by
          rw [hL, hr]
          simp only [hq, hp]
        rw [hL2, mutateDaemonSetPod_lookups]
        cases pod with
        | none => exact Or.inl rfl
        | some p =>
          cases hO : p.ObjectMeta.OwnerReferences with
          | nil =>
            left
            simp [hO]
          | cons o rest =>
            by_cases hk : o.Kind = "DaemonSet"
            · cases hg : getNodeNameFromPod (some p) with
              | panic msg =>
                left
                simp [hO, hk, hg]
              | ok r =>
                obtain ⟨n, err⟩ := r
                cases err with
                | some e =>
                  left
                  simp [hO, hk, hg]
                | none =>
                  right
                  exact ⟨admReview, ar, some p, n, rfl, hq, hp, hg, by simp [hO, hk, hg]⟩
            · left
              simp [hO, hk]

/-- C15.  Whenever `Mutate` produces a response for a body that decodes to the
review `admReview` with the request `ar`, the bytes it returns are the
encoding of a review that has the type metadata and the request of
`admReview` and the response built from `ar`: only the response field is
replaced. -/
theorem Mutate_outbound_frame (J : Json) (body : Bytes) (verbose : Bool) (cs : Clientset)
    (admReview : AdmissionReview) (ar : AdmissionRequest) (b : Bytes)
    (hrev : J.unmarshalReview body = .ok admReview)
    (hreq : admReview.Request = some ar)
    (hret : (Mutate J body verbose cs).res = .ok (some b, none)) :
    ∃ out : AdmissionReview,
      J.marshalReview out = .ok b ∧
      out.Kind = admReview.Kind ∧ out.APIVersion = admReview.APIVersion ∧
      out.Request = admReview.Request ∧
      out.Request.map (fun r => (r.UID, r.Object.Raw)) = some (ar.UID, ar.Object.Raw) ∧
      out.Response = some (responseFor ar (some (bytesOf "[]"))) :=
  ⟨{ admReview with Response := some (responseFor ar (some (bytesOf "[]"))) },
    Mutate_returns_encoding J body verbose cs admReview ar b hrev hreq hret,
    rfl, rfl, rfl, by simp [hreq], rfl⟩

/-- C15, at the request for the pod without owner references. -/
theorem Mutate_outbound_frame_witness :
    ∃ out : AdmissionReview,
      (∃ b, sampleJson.marshalReview out = .ok b ∧
        (Mutate sampleJson (reviewBody rawBare) false sampleCluster).res = .ok (some b, none)) ∧
      out.Request = (reviewOf rawBare).Request :=
  have hret : (Mutate sampleJson (reviewBody rawBare) false sampleCluster).res
      = .ok (some _, none) := by
    set_option maxRecDepth 100000 in rfl
  have h := Mutate_outbound_frame sampleJson (reviewBody rawBare) false sampleCluster
    (reviewOf rawBare)
    { UID := sampleUID, Name := "", Namespace := "", Operation := "CREATE"
      Object := { Raw := rawBare }, OldObject := { Raw := [] } }
    _ (by set_option maxRecDepth 100000 in rfl) rfl hret
  h.elim fun out ho => ⟨out, ⟨_, ho.1, hret⟩, ho.2.2.2.1⟩

/-- C16.  For every body and every two cluster states, `Mutate` has the same
result (the same bytes, the same error, the same panic): what the node lookup
returns (a node with or without the label, or an error) does not reach the
result. -/
theorem Mutate_cluster_irrelevant (J : Json) (body : Bytes) (verbose : Bool)
    (cs1 cs2 : Clientset) :
    (Mutate J body verbose cs1).res = (Mutate J body verbose cs2).res := by
  rw [Mutate_res, Mutate_res]
  simp only [mutateDaemonSetPod_res_eq]

/-- C17 (code defect).  For a pod whose affinity substructure is present and
whose first match-field clause with key `metadata.name` has no value,
`getNodeNameFromPod` returns neither a node name nor the not-found error: it
panics on `f.Values[0]`, whatever follows the clause. -/
theorem getNodeNameFromPod_index_out_of_range (om : ObjectMeta) (scheduler node op : String)
    (exprs rest : List NodeSelectorRequirement) (more : List NodeSelectorTerm) :
    requiredTerms ⟨om, specWithTerms (⟨exprs, ⟨"metadata.name", op, []⟩ :: rest⟩ :: more)⟩
        = some (⟨exprs, ⟨"metadata.name", op, []⟩ :: rest⟩ :: more) ∧
      getNodeNameFromPod
          (some ⟨om, ⟨scheduler, node,
            some ⟨some ⟨some ⟨⟨exprs, ⟨"metadata.name", op, []⟩ :: rest⟩ :: more⟩⟩⟩⟩⟩)
        = .panic indexOutOfRange ∧
      ∀ (verbose : Bool) (cs : Clientset) (patch : List PatchOp),
        (mutateDaemonSetPod cs (some podDaemonSetNoValue) patch verbose).res
          = .panic indexOutOfRange := by
  refine ⟨rfl, ?_, ?_⟩
  · simp [getNodeNameFromPod, scanTerms, scanMatchFields]
  · intro verbose cs patch
    rw [mutateDaemonSetPod_res_eq]
    rfl

/-- C18 (code defect).  When the raw object is the JSON literal `null`, its
decode returns no error and leaves the pod pointer nil; `Mutate` passes the
nil pointer to `mutateDaemonSetPod`, where the read of the owner references
panics.  So does `Mutate`, for either value of `verbose` and every cluster
state. -/
theorem Mutate_nil_pod_panics :
    sampleJsonNull.unmarshalReview (reviewBody rawNull) = .ok (reviewOf rawNull) ∧
      (reviewOf rawNull).Request.map (fun ar => ar.Object.Raw) = some rawNull ∧
      sampleJsonNull.unmarshalPod rawNull = .ok none ∧
      (∀ (cs : Clientset) (patch : List PatchOp) (verbose : Bool),
        mutateDaemonSetPod cs none patch verbose = ⟨[], .panic nilDereference⟩) ∧
      ∀ (verbose : Bool) (cs : Clientset),
        Mutate sampleJsonNull (reviewBody rawNull) verbose cs =
          ⟨if verbose then [.log (.recv (reviewBody rawNull))] else [],
            .panic nilDereference⟩ := by
  have h1 : sampleJsonNull.unmarshalReview (reviewBody rawNull) = .ok (reviewOf rawNull) := by
    simp [sampleJsonNull]
  have h3 : sampleJsonNull.unmarshalPod rawNull = .ok none := by
    simp [sampleJsonNull]
  refine ⟨h1, rfl, h3, fun _ _ _ => rfl, ?_⟩
  intro verbose cs
  rw [Mutate_request sampleJsonNull (reviewBody rawNull) verbose cs (reviewOf rawNull)
    { UID := sampleUID, Name := "", Namespace := "", Operation := "CREATE"
      Object := { Raw := rawNull }, OldObject := { Raw := [] } } none h1 rfl h3]
  cases verbose <;> rfl

end Mutate
